import Mathlib

/-!
Verification of screenshot_daemon.c against its specification.

The development shallowly embeds the daemon's components:
interval-argument parsing (atoi and the default of 1000 ms), the
pixel normalizer inside save_png, the path allocator (date-partitioned
directory path, random hexadecimal filename, mkdir_p over a directory-set
filesystem model), the save_png resource/exit-path model, and the
scheduler loop as an event-trace semantics.

Machine integers are modelled as Nat/Int; byte stores truncate mod 256;
snprintf truncation to the C buffer sizes (512 and 1024 bytes including
the terminator) is modelled with List.take.
-/

/-! ### Interval argument parsing (main, lines 131-136) -/

/-- C isspace for the default locale, as used by atoi. -/
def cIsSpace (c : Char) : Bool :=
  c = ' ' || c = '\t' || c = '\n' || c = '\x0b' || c = '\x0c' || c = '\r'

/-- C isdigit. -/
def cIsDigit (c : Char) : Bool :=
  '0' ≤ c && c ≤ '9'

/-- Longest run of decimal digits at the head of the list. -/
def leadingDigits : List Char → List Char
  | [] => []
  | c :: cs => if cIsDigit c then c :: leadingDigits cs else []

/-- Numeric value of a decimal digit character. -/
def digitVal (c : Char) : Nat := c.toNat - '0'.toNat

/-- Value of a list of decimal digit characters, most significant first. -/
def digitsToNat (l : List Char) : Nat :=
  l.foldl (fun a c => 10 * a + digitVal c) 0

/-- C atoi: skip leading whitespace, optional sign, then leading digits;
returns 0 when no digits follow (non-numeric input). Idealized over
mathematical integers (C atoi overflow is undefined behaviour). -/
def atoi (s : List Char) : Int :=
  let t := s.dropWhile cIsSpace
  match t with
  | '-' :: rest => -(digitsToNat (leadingDigits rest) : Int)
  | '+' :: rest => (digitsToNat (leadingDigits rest) : Int)
  | _ => (digitsToNat (leadingDigits t) : Int)

/-- DEFAULT_INTERVAL_MS from the source. -/
def DEFAULT_INTERVAL_MS : Int := 1000

/-- Lines 132-136: interval_ms starts at the default; when an argument is
present, v = atoi(argv[1]) replaces it only when v > 0. -/
def effectiveInterval (arg : Option (List Char)) : Int :=
  match arg with
  | none => DEFAULT_INTERVAL_MS
  | some s => if atoi s > 0 then atoi s else DEFAULT_INTERVAL_MS

/-! ### Pixel normalizer (save_png, lines 111-120) -/

/-- The fields of XImage that save_png reads: dimensions, the three
channel masks, and XGetPixel as a function of coordinates. -/
structure XImg where
  width : Nat
  height : Nat
  red_mask : Nat
  green_mask : Nat
  blue_mask : Nat
  pixel : Nat → Nat → Nat

/-- Lines 114-117: the three bytes written at row[3x], row[3x+1], row[3x+2]
for pixel (x, y). Stores into png_byte truncate mod 256. -/
def pixelBytes (img : XImg) (x y : Nat) : List Nat :=
  [((img.pixel x y &&& img.red_mask) >>> 16) % 256,
   ((img.pixel x y &&& img.green_mask) >>> 8) % 256,
   (img.pixel x y &&& img.blue_mask) % 256]

/-- Contents of the row buffer after the inner loop over x for scanline y:
the 3-byte groups for x = 0 .. width-1 in order. -/
def normRow (img : XImg) (y : Nat) : List Nat :=
  ((List.range img.width).map (fun x => pixelBytes img x y)).flatten

theorem normRow_length_aux (g : Nat → List Nat) (hg : ∀ x, (g x).length = 3) :
    ∀ w : Nat, (((List.range w).map g).flatten).length = 3 * w := by
  intro w
  induction w with
  | zero => simp
  | succ n ih =>
    rw [List.range_succ, List.map_append, List.flatten_append]
    simp [ih, hg]
    omega

theorem join_triples_get (g : Nat → List Nat) (hg : ∀ x, (g x).length = 3) :
    ∀ (w x j : Nat), x < w → j < 3 →
      (((List.range w).map g).flatten).get? (3 * x + j) = (g x).get? j := by
  intro w
  induction w with
  | zero => intro x j hx _; omega
  | succ n ih =>
    intro x j hx hj
    rw [List.range_succ, List.map_append, List.flatten_append]
    by_cases hxn : x < n
    · rw [List.get?_append]
      · exact ih x j hxn hj
      · rw [normRow_length_aux g hg n]; omega
    · have hx' : x = n := by omega
      subst hx'
      rw [List.get?_append_right]
      · rw [normRow_length_aux g hg x]
        have h3 : 3 * x + j - 3 * x = j := by omega
        simp [h3]
      · rw [normRow_length_aux g hg x]; omega

/-- C4: with no argument the interval is the default 1000; an argument whose
atoi value is non-positive (non-numeric input gives 0, and zero or negative
values) leaves the default 1000; an argument whose atoi value is a positive
integer v makes the effective interval v. -/
theorem interval_arg_spec :
    effectiveInterval none = 1000 ∧
    (∀ s : List Char, atoi s ≤ 0 → effectiveInterval (some s) = 1000) ∧
    (∀ s : List Char, 0 < atoi s → effectiveInterval (some s) = atoi s) := by
  refine ⟨rfl, ?_, ?_⟩
  · intro s h
    simp only [effectiveInterval, DEFAULT_INTERVAL_MS]
    rw [if_neg (by omega)]
  · intro s h
    simp only [effectiveInterval]
    rw [if_pos (by omega)]

theorem interval_arg_spec_witness :
    (atoi ['x', 'y'] ≤ 0 ∧ effectiveInterval (some ['x', 'y']) = 1000) ∧
    (atoi ['-', '5'] ≤ 0 ∧ effectiveInterval (some ['-', '5']) = 1000) ∧
    (atoi ['0'] ≤ 0 ∧ effectiveInterval (some ['0']) = 1000) ∧
    (0 < atoi ['2', '5', '0'] ∧ effectiveInterval (some ['2', '5', '0']) = 250) :=
  ⟨⟨by decide, interval_arg_spec.2.1 ['x', 'y'] (by decide)⟩,
   ⟨by decide, interval_arg_spec.2.1 ['-', '5'] (by decide)⟩,
   ⟨by decide, interval_arg_spec.2.1 ['0'] (by decide)⟩,
   ⟨by decide, (interval_arg_spec.2.2 ['2', '5', '0'] (by decide)).trans (by decide)⟩⟩

/-- C1: for every pixel (x, y) of a frame, the bytes written at columns
3x, 3x+1, 3x+2 of the row buffer are the packed pixel word ANDed with the
red, green, blue masks and shifted right by 16, 8, 0 respectively, in
R, G, B order; the mask bounds make the byte store lossless. -/
theorem norm_row_spec (img : XImg) (x y : Nat) (hx : x < img.width)
    (hr : img.red_mask < 2 ^ 24) (hg : img.green_mask < 2 ^ 16)
    (hb : img.blue_mask < 2 ^ 8) :
    (normRow img y).get? (3 * x) = some ((img.pixel x y &&& img.red_mask) >>> 16) ∧
    (normRow img y).get? (3 * x + 1) = some ((img.pixel x y &&& img.green_mask) >>> 8) ∧
    (normRow img y).get? (3 * x + 2) = some (img.pixel x y &&& img.blue_mask) := by
  have hlen : ∀ z, (pixelBytes img z y).length = 3 := by intro z; rfl
  have hget := fun j hj =>
    join_triples_get (fun z => pixelBytes img z y) hlen img.width x j hx hj
  have hrv : (img.pixel x y &&& img.red_mask) >>> 16 < 256 := by
    have h1 : img.pixel x y &&& img.red_mask ≤ img.red_mask := Nat.and_le_right
    have h2 : img.pixel x y &&& img.red_mask < 2 ^ 24 := lt_of_le_of_lt h1 hr
    rw [Nat.shiftRight_eq_div_pow]
    omega
  have hgv : (img.pixel x y &&& img.green_mask) >>> 8 < 256 := by
    have h1 : img.pixel x y &&& img.green_mask ≤ img.green_mask := Nat.and_le_right
    have h2 : img.pixel x y &&& img.green_mask < 2 ^ 16 := lt_of_le_of_lt h1 hg
    rw [Nat.shiftRight_eq_div_pow]
    omega
  have hbv : img.pixel x y &&& img.blue_mask < 256 := by
    have h1 : img.pixel x y &&& img.blue_mask ≤ img.blue_mask := Nat.and_le_right
    omega
  refine ⟨?_, ?_, ?_⟩
  · have h := hget 0 (by omega)
    rw [Nat.add_zero] at h
    rw [normRow, h]
    simp [pixelBytes, Nat.mod_eq_of_lt hrv]
  · have h := hget 1 (by omega)
    rw [normRow, h]
    simp [pixelBytes, Nat.mod_eq_of_lt hgv]
  · have h := hget 2 (by omega)
    rw [normRow, h]
    simp [pixelBytes, Nat.mod_eq_of_lt hbv]

/-- The synthetic frame of the specification's worked example: masks
red = 0xFF0000, green = 0xFF00, blue = 0xFF, every pixel 0x112233. -/
def exampleImg : XImg :=
  { width := 1, height := 1, red_mask := 0xFF0000, green_mask := 0xFF00,
    blue_mask := 0xFF, pixel := fun _ _ => 0x112233 }

theorem norm_row_spec_witness :
    (normRow exampleImg 0).get? 0 = some 0x11 ∧
    (normRow exampleImg 0).get? 1 = some 0x22 ∧
    (normRow exampleImg 0).get? 2 = some 0x33 := by
  have h := norm_row_spec exampleImg 0 0 (by decide) (by decide) (by decide) (by decide)
  simp only [Nat.mul_zero, Nat.zero_add] at h
  exact ⟨h.1.trans (by decide), h.2.1.trans (by decide), h.2.2.trans (by decide)⟩

/-! ### Path allocator (main lines 158-172, random_hex lines 60-66) -/

theorem toDigitsCore_length_le :
    ∀ (fuel w : Nat), 1 ≤ w → ∀ (n : Nat) (ds : List Char), n < 10 ^ w →
      (Nat.toDigitsCore 10 fuel n ds).length ≤ w + ds.length := by
  intro fuel
  induction fuel with
  | zero =>
    intro w hw n ds _
    simp [Nat.toDigitsCore]
  | succ f ih =>
    intro w hw n ds hn
    by_cases h0 : n / 10 = 0
    · simp [Nat.toDigitsCore, h0]
      omega
    · simp only [Nat.toDigitsCore, h0, if_false]
      have hw2 : 2 ≤ w := by
        rcases Nat.lt_or_ge w 2 with hlt | hge
        · have hw1 : w = 1 := by omega
        
          rw [hw1] at hn
          simp at hn
          omega
        · exact hge
      have hn' : n / 10 < 10 ^ (w - 1) := by
        have hpow : 10 ^ (w - 1) * 10 = 10 ^ w := by
          rw [← pow_succ]
          congr 1
          omega
        have := (Nat.div_lt_iff_lt_mul (by omega : 0 < 10)).mpr (hpow ▸ hn)
        exact this
      have h := ih (w - 1) (by omega) (n / 10) (Nat.digitChar (n % 10) :: ds) hn'
      simp at h
      omega

/-- Decimal rendering of a nonnegative integer, as printf %d produces it. -/
def decRepr (n : Nat) : List Char := Nat.toDigits 10 n

/-- printf "%0wd" for a nonnegative value: the decimal rendering left-padded
with zeros to a minimum width w. -/
def padNum (w n : Nat) : List Char :=
  List.replicate (w - (decRepr n).length) '0' ++ decRepr n

theorem decRepr_length_le (w n : Nat) (hw : 1 ≤ w) (hn : n < 10 ^ w) :
    (decRepr n).length ≤ w := by
  have h := toDigitsCore_length_le (n + 1) w hw n [] hn
  simpa [decRepr, Nat.toDigits] using h

theorem padNum_length (w n : Nat) (hw : 1 ≤ w) (hn : n < 10 ^ w) :
    (padNum w n).length = w := by
  have h := decRepr_length_le w n hw hn
  simp [padNum]
  omega

/-- The four fields of struct tm that the daemon reads. localtime_r yields
tm_mon in 0..11, tm_mday in 1..31, tm_hour in 0..23. -/
structure Tm where
  tm_year : Nat
  tm_mon : Nat
  tm_mday : Nat
  tm_hour : Nat

/-- Line 163-164: the untruncated text of the snprintf format
"%s/Screenshots/%04d/%02d/%02d/%02d". -/
def dirChars (home : List Char) (t : Tm) : List Char :=
  home ++ "/Screenshots/".data ++ padNum 4 (t.tm_year + 1900)
    ++ "/".data ++ padNum 2 (t.tm_mon + 1)
    ++ "/".data ++ padNum 2 t.tm_mday
    ++ "/".data ++ padNum 2 t.tm_hour

/-- The dirpath buffer holds 512 bytes, one of them the terminator. -/
def dirpath (home : List Char) (t : Tm) : List Char :=
  (dirChars home t).take 511

/-- Line 62: the sixteen characters the filename draws from. -/
def hexAlphabet : List Char := "0123456789abcdef".data

/-- Lines 60-66: each output character is hex[rand() % 16]; rnd is the
stream of rand() values. -/
def random_hex (rnd : Nat → Nat) (len : Nat) : List Char :=
  (List.range len).map (fun i => hexAlphabet.getD (rnd i % 16) '0')

/-- RANDOM_NAME_LEN from the source. -/
def RANDOM_NAME_LEN : Nat := 8

/-- Line 172: snprintf(filepath, 1024, "%s/%s.png", dirpath, name). -/
def filepath (dp name : List Char) : List Char :=
  (dp ++ "/".data ++ name ++ ".png".data).take 1023

/-- The full output path computed by one iteration. -/
def capturePath (home : List Char) (t : Tm) (rnd : Nat → Nat) : List Char :=
  filepath (dirpath home t) (random_hex rnd RANDOM_NAME_LEN)

theorem hexAlphabet_getD_mem : ∀ m, m < 16 → hexAlphabet.getD m '0' ∈ hexAlphabet := by
  decide

/-- C2: under the bounds localtime guarantees (month 0-11, day 1-31,
hour 0-23), a four-digit-representable year, and a base directory short
enough that the 512-byte dirpath buffer does not truncate, the computed
path is base/Screenshots/YYYY/MM/DD/HH/name.png with a four-digit year,
zero-padded two-digit month, day and hour, and a leaf name of exactly
8 characters from the lowercase hexadecimal alphabet followed by ".png". -/
theorem capture_path_spec (home : List Char) (t : Tm) (rnd : Nat → Nat)
    (hlen : home.length ≤ 485)
    (hy : t.tm_year + 1900 < 10000) (hm : t.tm_mon < 12)
    (hd : t.tm_mday ≤ 31) (hh : t.tm_hour < 24) :
    capturePath home t rnd =
      home ++ "/Screenshots/".data ++ padNum 4 (t.tm_year + 1900)
        ++ "/".data ++ padNum 2 (t.tm_mon + 1)
        ++ "/".data ++ padNum 2 t.tm_mday
        ++ "/".data ++ padNum 2 t.tm_hour
        ++ "/".data ++ random_hex rnd 8 ++ ".png".data ∧
    (padNum 4 (t.tm_year + 1900)).length = 4 ∧
    (padNum 2 (t.tm_mon + 1)).length = 2 ∧
    (padNum 2 t.tm_mday).length = 2 ∧
    (padNum 2 t.tm_hour).length = 2 ∧
    (random_hex rnd 8).length = 8 ∧
    (∀ c ∈ random_hex rnd 8, c ∈ hexAlphabet) := by
  have h4 : (padNum 4 (t.tm_year + 1900)).length = 4 :=
    padNum_length 4 _ (by omega) (by norm_num; omega)
  have hm2 : (padNum 2 (t.tm_mon + 1)).length = 2 :=
    padNum_length 2 _ (by omega) (by norm_num; omega)
  have hd2 : (padNum 2 t.tm_mday).length = 2 :=
    padNum_length 2 _ (by omega) (by norm_num; omega)
  have hh2 : (padNum 2 t.tm_hour).length = 2 :=
    padNum_length 2 _ (by omega) (by norm_num; omega)
  have hrn : (random_hex rnd 8).length = 8 := by
    simp [random_hex]
  have hdlen : (dirChars home t).length = home.length + 26 := by
    simp [dirChars, List.length_append, h4, hm2, hd2, hh2]
  have hdp : dirpath home t = dirChars home t := by
    rw [dirpath]
    exact List.take_of_length_le (by omega)
  have hfp : capturePath home t rnd =
      dirChars home t ++ "/".data ++ random_hex rnd 8 ++ ".png".data := by
    rw [capturePath, filepath, hdp, RANDOM_NAME_LEN]
    refine List.take_of_length_le ?_
    simp only [List.length_append, hdlen, hrn]
    norm_num
    omega
  refine ⟨?_, h4, hm2, hd2, hh2, hrn, ?_⟩
  · rw [hfp, dirChars]
  · intro c hc
    simp only [random_hex, List.mem_map, List.mem_range] at hc
    obtain ⟨i, _, hci⟩ := hc
    rw [← hci]
    exact hexAlphabet_getD_mem _ (Nat.mod_lt _ (by omega))

/-- A concrete base directory for the C2 witness. -/
def home0 : List Char := "/home/u".data

/-- A concrete struct tm for the C2 witness: 2025-10-11, hour 14. -/
def tm0 : Tm := { tm_year := 125, tm_mon := 9, tm_mday := 11, tm_hour := 14 }

theorem capture_path_spec_witness :
    (home0.length ≤ 485 ∧ tm0.tm_year + 1900 < 10000 ∧ tm0.tm_mon < 12 ∧
      tm0.tm_mday ≤ 31 ∧ tm0.tm_hour < 24) ∧
    (capturePath home0 tm0 (fun i => i) =
      home0 ++ "/Screenshots/".data ++ padNum 4 (tm0.tm_year + 1900)
        ++ "/".data ++ padNum 2 (tm0.tm_mon + 1)
        ++ "/".data ++ padNum 2 tm0.tm_mday
        ++ "/".data ++ padNum 2 tm0.tm_hour
        ++ "/".data ++ random_hex (fun i => i) 8 ++ ".png".data ∧
    (padNum 4 (tm0.tm_year + 1900)).length = 4 ∧
    (padNum 2 (tm0.tm_mon + 1)).length = 2 ∧
    (padNum 2 tm0.tm_mday).length = 2 ∧
    (padNum 2 tm0.tm_hour).length = 2 ∧
    (random_hex (fun i => i) 8).length = 8 ∧
    (∀ c ∈ random_hex (fun i => i) 8, c ∈ hexAlphabet)) :=
  ⟨⟨by decide, by decide, by decide, by decide, by decide⟩,
   capture_path_spec home0 tm0 (fun i => i) (by decide) (by decide) (by decide)
     (by decide) (by decide)⟩

/-! ### mkdir_p (lines 36-57) over a directory-set filesystem model.
The filesystem primitive is an external collaborator; it is modelled as
the set of directories that exist. mkdir creates a missing directory and
reports failure (as EEXIST or ENOENT do, via a negative return) when the
name is empty or already present. -/

/-- The set of directories that exist, as a list of paths. -/
abbrev FS : Type := List (List Char)

/-- The mkdir primitive: fails on an empty name or an existing directory,
otherwise records the new directory and succeeds with 0. -/
def mkdir (fs : FS) (d : List Char) : FS × Int :=
  if d = [] then (fs, -1)
  else if d ∈ fs then (fs, -1)
  else (d :: fs, 0)

/-- Run mkdir on each path in turn, discarding the per-call results, as the
loop body of mkdir_p does for the intermediate segments. -/
def mkdirSeq (fs : FS) : List (List Char) → FS
  | [] => fs
  | d :: ds => mkdirSeq (mkdir fs d).1 ds

/-- Lines 46-47: drop a single trailing slash from the copied path. -/
def stripSlash (l : List Char) : List Char :=
  if l.getLast? = some '/' then l.dropLast else l

/-- Lines 49-55: the proper segments of tmp that get a mkdir call — for
every index i ≥ 1 holding a slash, the prefix of length i (the loop
temporarily terminates the string at that slash). -/
def slashCuts (tmp : List Char) : List (List Char) :=
  ((List.range tmp.length).filter
    (fun i => decide (1 ≤ i) && decide (tmp.getD i ' ' = '/'))).map
    (fun i => tmp.take i)

/-- Lines 36-57: copy the path into a 512-byte buffer (truncating), fail
with -1 on an empty string, strip one trailing slash, mkdir every proper
slash-bounded segment ignoring the results, and return the result of the
final mkdir on the whole segment. -/
def mkdir_p (fs : FS) (path : List Char) : FS × Int :=
  let tmp0 := path.take 511
  if tmp0.length = 0 then (fs, -1)
  else
    let tmp := stripSlash tmp0
    mkdir (mkdirSeq fs (slashCuts tmp)) tmp

theorem mem_mkdir_fst {fs : FS} {d x : List Char} (h : x ∈ fs) : x ∈ (mkdir fs d).1 := by
  rw [mkdir]
  split
  · exact h
  · split
    · exact h
    · exact List.mem_cons_of_mem _ h

theorem self_mem_mkdir_fst {fs : FS} {d : List Char} (h : d ≠ []) : d ∈ (mkdir fs d).1 := by
  rw [mkdir]
  rw [if_neg h]
  split
  · assumption
  · exact List.mem_cons_self _ _

theorem mem_mkdirSeq {fs : FS} {x : List Char} (h : x ∈ fs) :
    ∀ ds : List (List Char), x ∈ mkdirSeq fs ds := by
  intro ds
  induction ds generalizing fs with
  | nil => exact h
  | cons d rest ih => exact ih (mem_mkdir_fst h)

theorem self_mem_mkdirSeq {x : List Char} (hx : x ≠ []) :
    ∀ (ds : List (List Char)) (fs : FS), x ∈ ds → x ∈ mkdirSeq fs ds := by
  intro ds
  induction ds with
  | nil => intro fs h; cases h
  | cons d rest ih =>
    intro fs h
    rcases List.mem_cons.mp h with h1 | h2
    · subst h1
      exact mem_mkdirSeq (self_mem_mkdir_fst hx) rest
    · exact ih _ h2

theorem mkdir_noop {fs : FS} {d : List Char} (h : d = [] ∨ d ∈ fs) :
    mkdir fs d = (fs, -1) := by
  rcases h with h | h
  · simp [mkdir, h]
  · simp [mkdir, h]

theorem mkdirSeq_noop : ∀ (ds : List (List Char)) (fs : FS),
    (∀ d ∈ ds, d = [] ∨ d ∈ fs) → mkdirSeq fs ds = fs := by
  intro ds
  induction ds with
  | nil => intro fs _; rfl
  | cons d rest ih =>
    intro fs h
    have hd := h d (List.mem_cons_self _ _)
    rw [mkdirSeq, mkdir_noop hd]
    exact ih fs (fun e he => h e (List.mem_cons_of_mem _ he))

theorem slashCuts_ne_nil {tmp : List Char} : ∀ d ∈ slashCuts tmp, d ≠ [] := by
  intro d hd
  simp only [slashCuts, List.mem_map, List.mem_filter, List.mem_range] at hd
  obtain ⟨i, ⟨hir, hcond⟩, htake⟩ := hd
  simp only [Bool.and_eq_true, decide_eq_true_eq] at hcond
  obtain ⟨h1, _⟩ := hcond
  subst htake
  intro hcontra
  have hlen2 : (tmp.take i).length = 0 := by rw [hcontra]; rfl
  rw [List.length_take] at hlen2
  omega

/-! ### save_png exit paths and resources (lines 69-127).
The libpng calls guarded by setjmp are numbered in call order:
0 png_init_io, 1 png_set_IHDR, 2 png_write_info, then the row-buffer
malloc, then png_write_row for rows 0..height-1 as numbers 3..height+2,
and png_write_end as any number ≥ height+3 (it runs after free(row)).
longjmp_at gives the number of the first libpng call that fails by
longjmp, none when no libpng call fails. -/

/-- The failure points of one save_png run. -/
structure PngEnv where
  fopen_ok : Bool
  create_write_ok : Bool
  create_info_ok : Bool
  malloc_ok : Bool
  longjmp_at : Option Nat
deriving DecidableEq

/-- What a save_png run returned and which resource actions it performed
on the destination file handle and the row buffer. -/
structure SaveResult where
  ret : Int
  opened : Bool
  closed : Bool
  rowAlloc : Bool
  rowFreed : Bool
deriving DecidableEq

/-- Lines 69-127, path by path. fopen failure returns -1 with no handle;
each explicit failure branch closes the handle; the setjmp branch
(lines 90-94) closes the handle but never frees the row buffer, so a
longjmp arriving from a png_write_row call (numbers 3..height+2, after
the malloc) exits with the row buffer allocated and unfreed. -/
def save_png (height : Nat) (env : PngEnv) : SaveResult :=
  if env.fopen_ok = false then
    { ret := -1, opened := false, closed := false, rowAlloc := false, rowFreed := false }
  else if env.create_write_ok = false then
    { ret := -1, opened := true, closed := true, rowAlloc := false, rowFreed := false }
  else if env.create_info_ok = false then
    { ret := -1, opened := true, closed := true, rowAlloc := false, rowFreed := false }
  else
    match env.longjmp_at with
    | some k =>
      if k < 3 then
        { ret := -1, opened := true, closed := true, rowAlloc := false, rowFreed := false }
      else if env.malloc_ok = false then
        { ret := -1, opened := true, closed := true, rowAlloc := false, rowFreed := false }
      else if k < 3 + height then
        { ret := -1, opened := true, closed := true, rowAlloc := true, rowFreed := false }
      else
        { ret := -1, opened := true, closed := true, rowAlloc := true, rowFreed := true }
    | none =>
      if env.malloc_ok = false then
        { ret := -1, opened := true, closed := true, rowAlloc := false, rowFreed := false }
      else
        { ret := 0, opened := true, closed := true, rowAlloc := true, rowFreed := true }

/-! ### Scheduler loop (main, lines 157-185) as an event trace -/

/-- The observable actions of one loop iteration, in program order. -/
inductive Ev where
  | mkdirp : List Char → Ev
  | captureAttempt : Ev
  | savePngCall : List Char → Int → Ev
  | printSaved : List Char → Ev
  | printCaptureFailed : Ev
  | destroyImage : Ev
  | sleep : Nat → Ev
deriving DecidableEq

/-- The external outcomes one iteration can meet: whether XGetImage
returns an image, and how the save_png run behaves. -/
structure IterEnv where
  captureOk : Bool
  png : PngEnv

/-- Lines 158-182: the work of one iteration in program order — mkdir_p the
date directory, attempt the capture, and on success call save_png on the
computed path, print the saved line only when save_png returned 0, and
destroy the image; on capture failure only report it. -/
def workTrace (home : List Char) (t : Tm) (rnd : Nat → Nat) (height : Nat)
    (env : IterEnv) : List Ev :=
  Ev.mkdirp (dirpath home t) :: Ev.captureAttempt ::
    (if env.captureOk then
      Ev.savePngCall (capturePath home t rnd) (save_png height env.png).ret ::
        ((if (save_png height env.png).ret = 0
          then [Ev.printSaved (capturePath home t rnd)] else [])
          ++ [Ev.destroyImage])
    else [Ev.printCaptureFailed])

/-- Lines 157-185: one full cycle is the work followed by
usleep(interval_ms * 1000). -/
def iterationTrace (home : List Char) (t : Tm) (rnd : Nat → Nat)
    (height interval : Nat) (env : IterEnv) : List Ev :=
  workTrace home t rnd height env ++ [Ev.sleep interval]

/-- One cycle with the filesystem threaded through: line 165 calls mkdir_p
and discards its return value, so the new filesystem is mkdir_p's state and
the trace does not depend on the filesystem at all. -/
def iterationFS (home : List Char) (t : Tm) (rnd : Nat → Nat)
    (height interval : Nat) (env : IterEnv) (fs : FS) : FS × List Ev :=
  ((mkdir_p fs (dirpath home t)).1,
   iterationTrace home t rnd height interval env)

/-- C9: mkdir_p is idempotent — a second run for the same path leaves the
directory state unchanged — and the loop's observable behaviour never
depends on the filesystem state, so an already-existing directory (the
second run's universal condition) alters nothing. -/
theorem mkdir_p_idempotent :
    (∀ (fs : FS) (path : List Char),
      (mkdir_p (mkdir_p fs path).1 path).1 = (mkdir_p fs path).1) ∧
    (∀ (home : List Char) (t : Tm) (rnd : Nat → Nat) (height interval : Nat)
       (env : IterEnv) (fs1 fs2 : FS),
      (iterationFS home t rnd height interval env fs1).2 =
      (iterationFS home t rnd height interval env fs2).2) := by
  constructor
  · intro fs path
    by_cases h0 : (path.take 511).length = 0
    · simp [mkdir_p, h0]
    · have hrun : ∀ g : FS, mkdir_p g path =
          mkdir (mkdirSeq g (slashCuts (stripSlash (path.take 511))))
            (stripSlash (path.take 511)) := by
        intro g
        simp only [mkdir_p]
        rw [if_neg h0]
      rw [hrun, hrun]
      generalize stripSlash (path.take 511) = tmp
      have hmem : ∀ d ∈ slashCuts tmp, d = [] ∨
          d ∈ (mkdir (mkdirSeq fs (slashCuts tmp)) tmp).1 := by
        intro d hd
        right
        exact mem_mkdir_fst (self_mem_mkdirSeq (slashCuts_ne_nil d hd) _ fs hd)
      rw [mkdirSeq_noop _ _ hmem]
      by_cases he : tmp = []
      · rw [mkdir_noop (Or.inl he)]
      · rw [mkdir_noop (Or.inr (self_mem_mkdir_fst he))]
  · intro home t rnd height interval env fs1 fs2
    rfl

/-- C10: mkdir_p returns -1 on an empty path; otherwise its return value is
exactly the result of the final mkdir call (run after the intermediate
segments were mkdired with their results discarded); when the full stripped
path already exists the return is -1, hence nonzero; and the loop's
observable behaviour is independent of the filesystem state, so the
discarded return value is never observable. -/
theorem mkdir_p_return_spec :
    (∀ fs : FS, mkdir_p fs [] = (fs, -1)) ∧
    (∀ (fs : FS) (path : List Char), (path.take 511).length ≠ 0 →
      mkdir_p fs path =
        mkdir (mkdirSeq fs (slashCuts (stripSlash (path.take 511))))
          (stripSlash (path.take 511))) ∧
    (∀ (fs : FS) (path : List Char), (path.take 511).length ≠ 0 →
      stripSlash (path.take 511) ∈ fs → (mkdir_p fs path).2 = -1) ∧
    (∀ (home : List Char) (t : Tm) (rnd : Nat → Nat) (height interval : Nat)
       (env : IterEnv) (fs1 fs2 : FS),
      (iterationFS home t rnd height interval env fs1).2 =
      (iterationFS home t rnd height interval env fs2).2) := by
  have hrun : ∀ (g : FS) (path : List Char), (path.take 511).length ≠ 0 →
      mkdir_p g path =
        mkdir (mkdirSeq g (slashCuts (stripSlash (path.take 511))))
          (stripSlash (path.take 511)) := by
    intro g path h0
    simp only [mkdir_p]
    rw [if_neg h0]
  refine ⟨fun fs => rfl, hrun, ?_, fun _ _ _ _ _ _ _ _ => rfl⟩
  intro fs path h0 hmem
  rw [hrun fs path h0]
  have hmem2 : stripSlash (path.take 511) ∈
      mkdirSeq fs (slashCuts (stripSlash (path.take 511))) :=
    mem_mkdirSeq hmem _
  rw [mkdir_noop (Or.inr hmem2)]

theorem mkdir_p_return_spec_witness :
    ((((['a'] : List Char).take 511).length ≠ 0) ∧
      stripSlash ((['a'] : List Char).take 511) ∈ ([['a']] : FS)) ∧
    (mkdir_p [['a']] ['a']).2 = -1 :=
  ⟨⟨by decide, by decide⟩,
   mkdir_p_return_spec.2.2.1 [['a']] ['a'] (by decide) (by decide)⟩

/-- The save_png run of the C3 analysis: every step succeeds until the
first png_write_row call (number 3) longjmps. -/
def leakEnv : PngEnv :=
  { fopen_ok := true, create_write_ok := true, create_info_ok := true,
    malloc_ok := true, longjmp_at := some 3 }

/-- C3: evaluation of save_png on a 1-row image whose png_write_row call
fails by longjmp. The run returns the error result -1 and closes the file
handle, but exits through the setjmp branch with the row buffer allocated
and never freed — the claimed release of the row buffer on every exit path
fails on this path. -/
theorem save_png_longjmp_leak :
    save_png 1 leakEnv =
      { ret := -1, opened := true, closed := true,
        rowAlloc := true, rowFreed := false } ∧
    ¬((save_png 1 leakEnv).rowAlloc → (save_png 1 leakEnv).rowFreed) := by
  decide

/-- An all-success save_png run, for concrete instantiations. -/
def pngOk : PngEnv :=
  { fopen_ok := true, create_write_ok := true, create_info_ok := true,
    malloc_ok := true, longjmp_at := none }

/-- An iteration whose XGetImage returns no image. -/
def envFail : IterEnv := { captureOk := false, png := pngOk }

/-- An iteration where capture and save both succeed. -/
def envOk : IterEnv := { captureOk := true, png := pngOk }

/-- C5: in an iteration whose capture fails, save_png is never called, no
saved-line is printed, the failure is reported, and the iteration still ends
with the sleep (the loop proceeds to the next tick); and in any iteration
the saved-line naming the file path is printed exactly when capture
succeeded and save_png returned 0. -/
theorem capture_failure_spec (home : List Char) (t : Tm) (rnd : Nat → Nat)
    (height interval : Nat) (env : IterEnv) :
    (env.captureOk = false →
      (∀ (p : List Char) (r : Int),
        Ev.savePngCall p r ∉ iterationTrace home t rnd height interval env) ∧
      (∀ p : List Char,
        Ev.printSaved p ∉ iterationTrace home t rnd height interval env) ∧
      Ev.printCaptureFailed ∈ iterationTrace home t rnd height interval env ∧
      (iterationTrace home t rnd height interval env).getLast? =
        some (Ev.sleep interval)) ∧
    (∀ p : List Char,
      Ev.printSaved p ∈ iterationTrace home t rnd height interval env ↔
        env.captureOk = true ∧ (save_png height env.png).ret = 0 ∧
          p = capturePath home t rnd) := by
  constructor
  · intro hcap
    refine ⟨?_, ?_, ?_, ?_⟩
    · intro p r
      simp [iterationTrace, workTrace, hcap]
    · intro p
      simp [iterationTrace, workTrace, hcap]
    · simp [iterationTrace, workTrace, hcap]
    · rw [iterationTrace, List.getLast?_concat]
  · intro p
    by_cases hcap : env.captureOk = true
    · by_cases hret : (save_png height env.png).ret = 0
      · simp [iterationTrace, workTrace, hcap, hret]
      · simp [iterationTrace, workTrace, hcap, hret]
    · simp [iterationTrace, workTrace, hcap]

theorem capture_failure_spec_witness :
    envFail.captureOk = false ∧
    Ev.savePngCall (capturePath [] tm0 (fun _ => 0)) 0 ∉
      iterationTrace [] tm0 (fun _ => 0) 1 1000 envFail ∧
    Ev.printSaved (capturePath [] tm0 (fun _ => 0)) ∉
      iterationTrace [] tm0 (fun _ => 0) 1 1000 envFail ∧
    Ev.printCaptureFailed ∈ iterationTrace [] tm0 (fun _ => 0) 1 1000 envFail ∧
    (iterationTrace [] tm0 (fun _ => 0) 1 1000 envFail).getLast? =
      some (Ev.sleep 1000) :=
  ⟨rfl,
   ((capture_failure_spec [] tm0 (fun _ => 0) 1 1000 envFail).1 rfl).1 _ 0,
   ((capture_failure_spec [] tm0 (fun _ => 0) 1 1000 envFail).1 rfl).2.1 _,
   ((capture_failure_spec [] tm0 (fun _ => 0) 1 1000 envFail).1 rfl).2.2.1,
   ((capture_failure_spec [] tm0 (fun _ => 0) 1 1000 envFail).1 rfl).2.2.2⟩

/-! ### Timing of the loop. Each event is given a real duration by an
arbitrary assignment; the sleep event lasts exactly the configured
interval. Iteration start times accumulate cycle durations — there is no
absolute-deadline correction in the source to model. -/

/-- Duration of one event: usleep(interval_ms * 1000) lasts the interval;
every other action lasts whatever the load makes it last. -/
def evDuration (work : Ev → Nat) : Ev → Nat
  | Ev.sleep ms => ms
  | e => work e

/-- Total duration of a list of events. -/
def traceDuration (work : Ev → Nat) (tr : List Ev) : Nat :=
  (tr.map (evDuration work)).sum

/-- The trace of cycle k when the per-cycle times, rand streams and
outcomes are given by streams. -/
def cycleTrace (home : List Char) (ts : Nat → Tm) (rnds : Nat → Nat → Nat)
    (height interval : Nat) (envs : Nat → IterEnv) (k : Nat) : List Ev :=
  iterationTrace home (ts k) (rnds k) height interval (envs k)

/-- Start time of iteration k: each iteration begins when the previous
cycle's work and sleep have both completed. -/
def startTime (work : Ev → Nat) (cycle : Nat → List Ev) : Nat → Nat
  | 0 => 0
  | k + 1 => startTime work cycle k + traceDuration work (cycle k)

/-- C6: in every cycle — successful or failed — the sleep of exactly the
configured interval is the last event and no sleep occurs during the work;
consecutive iteration starts are separated by exactly the cycle's work
duration plus the interval (and hence by at least the interval); and any
save_png call of a cycle happens at least the interval before the cycle
ends, so consecutive successful saves are at least the interval apart. -/
theorem scheduler_sleep_spec (home : List Char) (ts : Nat → Tm)
    (rnds : Nat → Nat → Nat) (height interval : Nat) (envs : Nat → IterEnv)
    (work : Ev → Nat) (k : Nat) :
    (cycleTrace home ts rnds height interval envs k).getLast? =
      some (Ev.sleep interval) ∧
    (∀ ms, Ev.sleep ms ∉ workTrace home (ts k) (rnds k) height (envs k)) ∧
    startTime work (cycleTrace home ts rnds height interval envs) (k + 1) =
      startTime work (cycleTrace home ts rnds height interval envs) k +
        (traceDuration work (workTrace home (ts k) (rnds k) height (envs k)) +
          interval) ∧
    interval ≤
      startTime work (cycleTrace home ts rnds height interval envs) (k + 1) -
      startTime work (cycleTrace home ts rnds height interval envs) k ∧
    (∀ (p : Nat) (fp : List Char) (r : Int),
      (cycleTrace home ts rnds height interval envs k).get? p =
        some (Ev.savePngCall fp r) →
      traceDuration work ((cycleTrace home ts rnds height interval envs k).take p) +
        interval ≤
      traceDuration work (cycleTrace home ts rnds height interval envs k)) := by
  have hdur : traceDuration work (cycleTrace home ts rnds height interval envs k) =
      traceDuration work (workTrace home (ts k) (rnds k) height (envs k)) +
        interval := by
    simp [cycleTrace, iterationTrace, traceDuration, evDuration]
  refine ⟨?_, ?_, ?_, ?_, ?_⟩
  · rw [cycleTrace, iterationTrace, List.getLast?_concat]
  · intro ms
    by_cases hcap : (envs k).captureOk = true
    · by_cases hret : (save_png height (envs k).png).ret = 0
      · simp [workTrace, hcap, hret]
      · simp [workTrace, hcap, hret]
    · simp [workTrace, hcap]
  · rw [startTime, hdur]
  · rw [startTime, hdur]
    omega
  · intro p fp r hp
    have hplen : p < (cycleTrace home ts rnds height interval envs k).length := by
      by_contra hge
      rw [List.get?_eq_none.mpr (by omega)] at hp
      exact Option.noConfusion hp
    rw [cycleTrace, iterationTrace] at hp hplen
    rw [List.length_append, List.length_singleton] at hplen
    have hpw : p < (workTrace home (ts k) (rnds k) height (envs k)).length := by
      rcases Nat.lt_or_ge p (workTrace home (ts k) (rnds k) height (envs k)).length
        with h | h
      · exact h
      · exfalso
        have hpe : p = (workTrace home (ts k) (rnds k) height (envs k)).length := by
          omega
        rw [hpe, List.get?_append_right (Nat.le_refl _), Nat.sub_self] at hp
        simp at hp
    have htake : (workTrace home (ts k) (rnds k) height (envs k) ++
        [Ev.sleep interval]).take p =
        (workTrace home (ts k) (rnds k) height (envs k)).take p := by
      rw [List.take_append_eq_append_take]
      have h0 : p - (workTrace home (ts k) (rnds k) height (envs k)).length = 0 := by
        omega
      rw [h0]
      simp
    have hdur2 : traceDuration work
        (workTrace home (ts k) (rnds k) height (envs k) ++ [Ev.sleep interval]) =
        traceDuration work (workTrace home (ts k) (rnds k) height (envs k)) +
          interval := by
      simp [traceDuration, evDuration]
    rw [cycleTrace, iterationTrace, htake, hdur2]
    have hsum : traceDuration work
        ((workTrace home (ts k) (rnds k) height (envs k)).take p) ≤
        traceDuration work (workTrace home (ts k) (rnds k) height (envs k)) := by
      rw [traceDuration, traceDuration, List.map_take]
      have h5 := List.sum_take_add_sum_drop
        ((workTrace home (ts k) (rnds k) height (envs k)).map (evDuration work)) p
      omega
    omega

theorem scheduler_sleep_spec_witness :
    ((cycleTrace [] (fun _ => tm0) (fun _ _ => 0) 1 1000 (fun _ => envOk) 0).get? 2 =
      some (Ev.savePngCall (capturePath [] tm0 (fun _ => 0)) 0)) ∧
    (traceDuration (fun _ => 0)
        ((cycleTrace [] (fun _ => tm0) (fun _ _ => 0) 1 1000 (fun _ => envOk) 0).take 2) +
      1000 ≤
      traceDuration (fun _ => 0)
        (cycleTrace [] (fun _ => tm0) (fun _ _ => 0) 1 1000 (fun _ => envOk) 0)) :=
  ⟨by decide,
   (scheduler_sleep_spec [] (fun _ => tm0) (fun _ _ => 0) 1 1000 (fun _ => envOk)
      (fun _ => 0) 0).2.2.2.2 2 (capturePath [] tm0 (fun _ => 0)) 0 (by decide)⟩

/-! ### Process exit behaviour (main, lines 143-147, 157-189) -/

/-- The loop body's exit decision: every branch of lines 158-184 falls
through to the usleep — no branch breaks out of or returns from the
while(1) loop. -/
def iterationExit (height : Nat) (env : IterEnv) : Option Int :=
  if env.captureOk = true then
    if (save_png height env.png).ret = 0 then none else none
  else none

/-- Run the loop for at most fuel iterations; some c means the loop
terminated with exit code c within that many iterations, none means it was
still running. -/
def runLoop (height : Nat) : Nat → (Nat → IterEnv) → Option Int
  | 0, _ => none
  | fuel + 1, envs =>
    match iterationExit height (envs 0) with
    | some c => some c
    | none => runLoop height fuel (fun i => envs (i + 1))

/-- Lines 143-147 then 157-185: when XOpenDisplay returns NULL the process
returns 1 before the loop; otherwise it enters the while(1) loop. -/
def processExit (displayOk : Bool) (height : Nat) (envs : Nat → IterEnv)
    (fuel : Nat) : Option Int :=
  if displayOk = false then some 1
  else runLoop height fuel envs

theorem runLoop_none (height : Nat) :
    ∀ (fuel : Nat) (envs : Nat → IterEnv), runLoop height fuel envs = none := by
  intro fuel
  induction fuel with
  | zero => intro envs; rfl
  | succ f ih =>
    intro envs
    have hexit : iterationExit height (envs 0) = none := by
      simp [iterationExit]
    rw [runLoop, hexit]
    exact ih _

/-- C7: the process exits with status 1 exactly when the display connection
fails at startup; whenever the display connection succeeds the loop body
never produces an exit, so no finite number of iterations terminates the
process and the final return 0 is unreachable. -/
theorem exit_code_spec (height : Nat) (envs : Nat → IterEnv) (fuel : Nat) :
    processExit false height envs fuel = some 1 ∧
    processExit true height envs fuel = none ∧
    (∀ (displayOk : Bool) (c : Int),
      processExit displayOk height envs fuel = some c →
        displayOk = false ∧ c = 1) := by
  refine ⟨rfl, ?_, ?_⟩
  · rw [processExit]
    simp only [Bool.true_eq_false, if_false]
    exact runLoop_none height fuel envs
  · intro displayOk c h
    cases displayOk with
    | false =>
      rw [processExit] at h
      simp only [if_pos rfl] at h
      exact ⟨rfl, (Option.some.inj h).symm⟩
    | true =>
      rw [processExit] at h
      simp only [Bool.true_eq_false, if_false] at h
      rw [runLoop_none height fuel envs] at h
      exact Option.noConfusion h

theorem exit_code_spec_witness :
    processExit false 1 (fun _ => envOk) 3 = some 1 ∧
    processExit true 1 (fun _ => envOk) 3 = none ∧
    (false = false ∧ (1 : Int) = 1) :=
  ⟨(exit_code_spec 1 (fun _ => envOk) 3).1,
   (exit_code_spec 1 (fun _ => envOk) 3).2.1,
   (exit_code_spec 1 (fun _ => envOk) 3).2.2 false 1
     (exit_code_spec 1 (fun _ => envOk) 3).1⟩

/-- C8: in every iteration — capture succeeding or failing — the trace
begins with the mkdir_p of the date directory, followed by the capture
attempt, so the directory side effect precedes any capture or file-write
attempt; and the filesystem after the iteration is mkdir_p's state, however
the rest of the iteration went. -/
theorem mkdir_before_capture_spec (home : List Char) (t : Tm) (rnd : Nat → Nat)
    (height interval : Nat) (env : IterEnv) :
    (∃ rest : List Ev, iterationTrace home t rnd height interval env =
      Ev.mkdirp (dirpath home t) :: Ev.captureAttempt :: rest) ∧
    (∀ fs : FS, (iterationFS home t rnd height interval env fs).1 =
      (mkdir_p fs (dirpath home t)).1) :=
  ⟨⟨_, rfl⟩, fun _ => rfl⟩
